import Mathlib

/-!
Verification of the monetary-policy rate engine.

The development shallowly embeds the rate-calculation pipeline of
AggMonetaryPolicy3 (file src/policies/agg_monetary_policy3.py) together
with the conversion helpers of src/utils/calculations.py.

Conventions of the embedding:
 - Python integers are modelled by Int; the Python floor division a // b
   is Int.fdiv (floor division, identical on all signs), and it raises
   ZeroDivisionError exactly when the divisor is 0, modelled by the
   Except monad with the single exception constructor below.
 - The only floating-point computation in the source is the expression
   np.exp(power / 1e18) * 1e18 inside the exp method.  Its value is kept
   abstract as an integer-valued parameter mid of the definitions; the
   mathematically intended value of that parameter is floatExpModel
   below (the real exponential scaled by 1e18 and rounded down).
   Theorems that need facts about the float state them as hypotheses on
   mid (non-negativity, monotonicity, value at 0), which the double
   precision np.exp satisfies.
 - Real-valued helper computations (calculate_annual_rate, which the
   source performs on Python floats) are modelled over the reals, and
   the exact to_wei / from_wei helpers over the rationals.
-/

/-- The only exception the embedded code can raise: a Python division by
zero, raised by the floor division a // b exactly when b is zero. -/
inductive PyExc where
  | zeroDivisionError
deriving DecidableEq, Repr

/-- Python floor division a // b: raises ZeroDivisionError when the
divisor is zero, otherwise floor division (Int.fdiv, rounding toward
negative infinity, as Python does for every sign combination). -/
def pydiv (a b : ℤ) : Except PyExc ℤ :=
  if b = 0 then .error .zeroDivisionError else .ok (Int.fdiv a b)

/-- Contract constant MAX_RATE = 43959106799 (300 percent APY), from the
constructor of AggMonetaryPolicy3. -/
def MAX_RATE : ℤ := 43959106799

/-- Contract constant MAX_EXP = 1000 * 10^18. -/
def MAX_EXP : ℤ := 1000 * 10 ^ 18

/-- Contract constant MIN_SIGMA = 10^14. -/
def MIN_SIGMA : ℤ := 10 ^ 14

/-- Contract constant MAX_SIGMA = 10^18. -/
def MAX_SIGMA : ℤ := 10 ^ 18

/-- Contract constant TARGET_REMAINDER = 10^17. -/
def TARGET_REMAINDER : ℤ := 10 ^ 17

/-- Contract constant MAX_TARGET_DEBT_FRACTION = 10^18. -/
def MAX_TARGET_DEBT_FRACTION : ℤ := 10 ^ 18

/-- The exp method of AggMonetaryPolicy3:
saturates to 0 at or below -41446531673892821376, to MAX_EXP at or
above 135305999368893231589, and otherwise returns
min(np.exp(power / 1e18) * 1e18, MAX_EXP).  The floating-point quantity
np.exp(power / 1e18) * 1e18 is abstracted by the parameter mid. -/
def exp (mid : ℤ → ℤ) (power : ℤ) : ℤ :=
  if power ≤ -41446531673892821376 then 0
  else if 135305999368893231589 ≤ power then MAX_EXP
  else min (mid power) MAX_EXP

/-- The keyword arguments of calculate_rate, with the default values the
source supplies through kwargs.get. -/
structure RateInputs where
  price : ℤ := 10 ^ 18
  sigma : ℤ := 2 * 10 ^ 16
  rate0 : ℤ := 0
  target_debt_fraction : ℤ := 10 ^ 17
  debt_for : ℤ := 0
  total_debt : ℤ := 0
  pk_debt : ℤ := 0
  ceiling : ℤ := 0
deriving DecidableEq, Repr

/-- The calculate_rate method of AggMonetaryPolicy3, line for line:
power = (10^18 - price) * 10^18 // sigma;
if pk_debt > 0 and total_debt > 0:
  power -= pk_debt * 10^18 // total_debt * 10^18 // target_debt_fraction;
rate = rate0 * min(exp(power), MAX_EXP) // 10^18;
if ceiling > 0 and debt_for > 0:
  f = min(debt_for * 10^18 // ceiling, 10^18 - TARGET_REMAINDER // 1000);
  rate = min(rate * ((10^18 - TARGET_REMAINDER)
             + TARGET_REMAINDER * 10^18 // (10^18 - f)) // 10^18, MAX_RATE).
Divisions by a variable divisor go through pydiv and can raise; the
divisions by the literal 10^18 and 1000 cannot raise and use Int.fdiv
directly. -/
def calculate_rate (mid : ℤ → ℤ) (k : RateInputs) : Except PyExc ℤ :=
  match pydiv ((10 ^ 18 - k.price) * 10 ^ 18) k.sigma with
  | .error e => .error e
  | .ok power₀ =>
    match (if 0 < k.pk_debt ∧ 0 < k.total_debt then
            match pydiv (k.pk_debt * 10 ^ 18) k.total_debt with
            | .error e => .error e
            | .ok q =>
              match pydiv (q * 10 ^ 18) k.target_debt_fraction with
              | .error e => .error e
              | .ok adj => .ok (power₀ - adj)
          else .ok power₀ : Except PyExc ℤ) with
    | .error e => .error e
    | .ok power =>
      let rate := Int.fdiv (k.rate0 * min (exp mid power) MAX_EXP) (10 ^ 18)
      if 0 < k.ceiling ∧ 0 < k.debt_for then
        match pydiv (k.debt_for * 10 ^ 18) k.ceiling with
        | .error e => .error e
        | .ok u =>
          let f := min u (10 ^ 18 - Int.fdiv TARGET_REMAINDER 1000)
          match pydiv (TARGET_REMAINDER * 10 ^ 18) (10 ^ 18 - f) with
          | .error e => .error e
          | .ok w =>
            .ok (min (Int.fdiv (rate * ((10 ^ 18 - TARGET_REMAINDER) + w))
                        (10 ^ 18)) MAX_RATE)
      else .ok rate

/-! Pure mirrors of the intermediate quantities of calculate_rate, used
to state and prove facts about the value it returns when no division by
zero occurs.  Each one transcribes the corresponding source line with
total floor division. -/

/-- The quantity power = (10^18 - price) * 10^18 // sigma before the
debt-skew adjustment. -/
def power0V (k : RateInputs) : ℤ :=
  Int.fdiv ((10 ^ 18 - k.price) * 10 ^ 18) k.sigma

/-- The debt-skew adjustment
pk_debt * 10^18 // total_debt * 10^18 // target_debt_fraction. -/
def adjV (k : RateInputs) : ℤ :=
  Int.fdiv (Int.fdiv (k.pk_debt * 10 ^ 18) k.total_debt * 10 ^ 18)
    k.target_debt_fraction

/-- The value of power after the conditional debt-skew adjustment. -/
def powerV (k : RateInputs) : ℤ :=
  if 0 < k.pk_debt ∧ 0 < k.total_debt then power0V k - adjV k else power0V k

/-- The rate after step 3:
rate0 * min(exp(power), MAX_EXP) // 10^18. -/
def rate3V (mid : ℤ → ℤ) (k : RateInputs) : ℤ :=
  Int.fdiv (k.rate0 * min (exp mid (powerV k)) MAX_EXP) (10 ^ 18)

/-- The clamped utilization fraction
f = min(debt_for * 10^18 // ceiling, 10^18 - TARGET_REMAINDER // 1000)
of the ceiling-adjustment branch. -/
def fV (k : RateInputs) : ℤ :=
  min (Int.fdiv (k.debt_for * 10 ^ 18) k.ceiling)
    (10 ^ 18 - Int.fdiv TARGET_REMAINDER 1000)

/-- The ceiling-adjustment multiplier
(10^18 - TARGET_REMAINDER) + TARGET_REMAINDER * 10^18 // (10^18 - f). -/
def multV (k : RateInputs) : ℤ :=
  (10 ^ 18 - TARGET_REMAINDER)
    + Int.fdiv (TARGET_REMAINDER * 10 ^ 18) (10 ^ 18 - fV k)

/-- The value calculate_rate returns when it does not raise. -/
def rateFinalV (mid : ℤ → ℤ) (k : RateInputs) : ℤ :=
  if 0 < k.ceiling ∧ 0 < k.debt_for then
    min (Int.fdiv (rate3V mid k * multV k) (10 ^ 18)) MAX_RATE
  else rate3V mid k

/-- A concrete stand-in for the abstract floating-point exponential,
used to instantiate closed statements.  It is constant, hence monotone
and non-negative, and its value 10^18 agrees with the float
np.exp(0.0) * 1e18 at power 0.  Every closed statement evaluated with it
is arranged so that the middle branch value is either irrelevant (the
exponential saturates, or rate0 = 0) or only used at power 0. -/
def midDemo : ℤ → ℤ := fun _ => 10 ^ 18

/-- Python int() applied to an exact rational value: truncation toward
zero (floor for non-negative values, ceiling for negative ones). -/
def pyTrunc (q : ℚ) : ℤ :=
  if 0 ≤ q then ⌊q⌋ else ⌈q⌉

/-- The to_wei helper of src/utils/calculations.py:
int(val * 10 ** decimals).  The source defaults decimals to 18; it is
passed explicitly here. -/
def to_wei (val : ℚ) (decimals : ℕ) : ℤ :=
  pyTrunc (val * 10 ^ decimals)

/-- The from_wei helper of src/utils/calculations.py:
val / 10 ** decimals as an exact rational. -/
def from_wei (val : ℤ) (decimals : ℕ) : ℚ :=
  (val : ℚ) / 10 ^ decimals

/-- The calculate_annual_rate helper of src/utils/calculations.py:
seconds_in_year = 365 * 24 * 60 * 60 and
(1 + rate / 1e18) ** seconds_in_year - 1, modelled over the reals. -/
noncomputable def calculate_annual_rate (rate : ℤ) : ℝ :=
  (1 + (rate : ℝ) / 10 ^ 18) ^ (365 * 24 * 60 * 60) - 1

/-- The mathematically intended value of the floating-point expression
np.exp(power / 1e18) * 1e18 inside exp: the real exponential at
power / 1e18, scaled by 1e18 and rounded down to an integer. -/
noncomputable def floatExpModel (power : ℤ) : ℤ :=
  ⌊Real.exp ((power : ℝ) / 10 ^ 18) * 10 ^ 18⌋

/-- The base rate of Scenario A of the specification:
to_fixed((1.10) ^ (1 / 31536000) - 1).  The argument is a positive
irrational real, so the truncation of int() coincides with the floor. -/
noncomputable def rate0_scenarioA : ℤ :=
  ⌊((1.1 : ℝ) ^ ((1 : ℝ) / 31536000) - 1) * 10 ^ 18⌋

/-! Helper lemmas about pydiv, floor division and exp. -/

/-- pydiv succeeds exactly on a nonzero divisor and returns the floor
quotient. -/
theorem pydiv_ok {b : ℤ} (hb : b ≠ 0) (a : ℤ) :
    pydiv a b = .ok (Int.fdiv a b) := by
  rw [pydiv, if_neg hb]

/-- pydiv raises ZeroDivisionError on a zero divisor. -/
theorem pydiv_zero (a : ℤ) : pydiv a 0 = .error .zeroDivisionError := by
  rw [pydiv, if_pos rfl]

/-- Floor division is monotone in the dividend for a positive divisor. -/
theorem fdiv_le_fdiv_right {a b c : ℤ} (h : a ≤ b) (hc : 0 < c) :
    Int.fdiv a c ≤ Int.fdiv b c := by
  rw [Int.fdiv_eq_ediv _ hc.le, Int.fdiv_eq_ediv _ hc.le]
  exact Int.ediv_le_ediv hc h

/-- Floor division of a non-negative dividend is antitone in a positive
divisor. -/
theorem fdiv_le_fdiv_left {a c d : ℤ} (ha : 0 ≤ a) (hc : 0 < c)
    (hcd : c ≤ d) : Int.fdiv a d ≤ Int.fdiv a c := by
  have hd : 0 < d := lt_of_lt_of_le hc hcd
  rw [Int.fdiv_eq_ediv _ hc.le, Int.fdiv_eq_ediv _ hd.le]
  refine (Int.le_ediv_iff_mul_le hc).mpr ?_
  calc a / d * c ≤ a / d * d :=
        mul_le_mul_of_nonneg_left hcd (Int.ediv_nonneg ha hd.le)
    _ ≤ a := Int.ediv_mul_le a hd.ne'

/-- MAX_EXP is non-negative. -/
theorem MAX_EXP_nonneg : (0 : ℤ) ≤ MAX_EXP := by norm_num [MAX_EXP]

/-- The embedded exp never exceeds MAX_EXP, in every branch. -/
theorem exp_le_max (mid : ℤ → ℤ) (power : ℤ) : exp mid power ≤ MAX_EXP := by
  unfold exp
  split_ifs with h1 h2
  · exact MAX_EXP_nonneg
  · exact le_refl _
  · exact min_le_right _ _

/-- The embedded exp is non-negative whenever the abstract float value
is. -/
theorem exp_nonneg (mid : ℤ → ℤ) (hm : ∀ p, 0 ≤ mid p) (power : ℤ) :
    0 ≤ exp mid power := by
  unfold exp
  split_ifs with h1 h2
  · exact le_refl 0
  · exact MAX_EXP_nonneg
  · exact le_min (hm power) MAX_EXP_nonneg

/-- The embedded exp is monotone whenever the abstract float value is
monotone and non-negative. -/
theorem exp_monotone (mid : ℤ → ℤ) (hmono : Monotone mid)
    (hm : ∀ p, 0 ≤ mid p) : Monotone (exp mid) := by
  intro p q hpq
  unfold exp
  by_cases h1 : p ≤ -41446531673892821376
  · rw [if_pos h1]
    by_cases h2 : q ≤ -41446531673892821376
    · rw [if_pos h2]
    · rw [if_neg h2]
      by_cases h3 : 135305999368893231589 ≤ q
      · rw [if_pos h3]; exact MAX_EXP_nonneg
      · rw [if_neg h3]; exact le_min (hm q) MAX_EXP_nonneg
  · rw [if_neg h1]
    rw [if_neg (show ¬ q ≤ -41446531673892821376 by omega)]
    by_cases h3 : 135305999368893231589 ≤ p
    · rw [if_pos h3, if_pos (show 135305999368893231589 ≤ q by omega)]
    · rw [if_neg h3]
      by_cases h4 : 135305999368893231589 ≤ q
      · rw [if_pos h4]; exact min_le_right _ _
      · rw [if_neg h4]; exact min_le_min (hmono hpq) le_rfl

/-- The clamp on the utilization fraction. -/
theorem fV_le (k : RateInputs) :
    fV k ≤ 10 ^ 18 - Int.fdiv TARGET_REMAINDER 1000 := min_le_right _ _

/-- TARGET_REMAINDER // 1000 evaluates to 10^14. -/
theorem target_remainder_div : Int.fdiv TARGET_REMAINDER 1000 = 10 ^ 14 := by
  decide

/-- The divisor of the ceiling branch is at least 10^14, in particular
positive. -/
theorem ceil_denom_ge (k : RateInputs) : 10 ^ 14 ≤ 10 ^ 18 - fV k := by
  have h := fV_le k
  rw [target_remainder_div] at h
  omega

/-- The divisor of the ceiling branch is positive. -/
theorem ceil_denom_pos (k : RateInputs) : 0 < 10 ^ 18 - fV k := by
  have h := ceil_denom_ge k
  have : (0 : ℤ) < 10 ^ 14 := by norm_num
  omega

/-- When no division by zero occurs, calculate_rate returns the pure
value rateFinalV. -/
theorem calculate_rate_ok (mid : ℤ → ℤ) (k : RateInputs) (hσ : k.sigma ≠ 0)
    (hg : 0 < k.pk_debt → 0 < k.total_debt → k.target_debt_fraction ≠ 0) :
    calculate_rate mid k = .ok (rateFinalV mid k) := by
  unfold calculate_rate
  rw [pydiv_ok hσ]
  dsimp only
  by_cases hpk : 0 < k.pk_debt ∧ 0 < k.total_debt
  · rw [if_pos hpk, pydiv_ok hpk.2.ne']
    dsimp only
    rw [pydiv_ok (hg hpk.1 hpk.2)]
    dsimp only
    by_cases hc : 0 < k.ceiling ∧ 0 < k.debt_for
    · rw [if_pos hc, pydiv_ok hc.1.ne']
      dsimp only
      rw [pydiv_ok (show 10 ^ 18 -
            min (Int.fdiv (k.debt_for * 10 ^ 18) k.ceiling)
              (10 ^ 18 - Int.fdiv TARGET_REMAINDER 1000) ≠ 0
          from (ceil_denom_pos k).ne')]
      dsimp only
      rw [rateFinalV, if_pos hc, rate3V, powerV, if_pos hpk, multV]
      rfl
    · rw [if_neg hc, rateFinalV, if_neg hc, rate3V, powerV, if_pos hpk]
      rfl
  · rw [if_neg hpk]
    dsimp only
    by_cases hc : 0 < k.ceiling ∧ 0 < k.debt_for
    · rw [if_pos hc, pydiv_ok hc.1.ne']
      dsimp only
      rw [pydiv_ok (show 10 ^ 18 -
            min (Int.fdiv (k.debt_for * 10 ^ 18) k.ceiling)
              (10 ^ 18 - Int.fdiv TARGET_REMAINDER 1000) ≠ 0
          from (ceil_denom_pos k).ne')]
      dsimp only
      rw [rateFinalV, if_pos hc, rate3V, powerV, if_neg hpk, multV]
      rfl
    · rw [if_neg hc, rateFinalV, if_neg hc, rate3V, powerV, if_neg hpk]
      rfl

/-- The step-3 rate is non-negative for a non-negative base rate and a
non-negative float model. -/
theorem rate3V_nonneg (mid : ℤ → ℤ) (k : RateInputs) (h0 : 0 ≤ k.rate0)
    (hm : ∀ p, 0 ≤ mid p) : 0 ≤ rate3V mid k :=
  Int.fdiv_nonneg
    (mul_nonneg h0 (le_min (exp_nonneg mid hm _) MAX_EXP_nonneg))
    (by norm_num)

/-- The step-3 rate is at most 1000 times the base rate: the exponential
multiplier is capped at MAX_EXP = 1000 * 10^18. -/
theorem rate3V_le (mid : ℤ → ℤ) (k : RateInputs) (h0 : 0 ≤ k.rate0) :
    rate3V mid k ≤ 1000 * k.rate0 := by
  unfold rate3V
  have h1 : k.rate0 * min (exp mid (powerV k)) MAX_EXP ≤ k.rate0 * MAX_EXP :=
    mul_le_mul_of_nonneg_left (min_le_right _ _) h0
  have h2 := fdiv_le_fdiv_right h1 (show (0 : ℤ) < 10 ^ 18 by norm_num)
  have h3 : Int.fdiv (k.rate0 * MAX_EXP) (10 ^ 18) = 1000 * k.rate0 := by
    rw [MAX_EXP, show k.rate0 * (1000 * 10 ^ 18) = 1000 * k.rate0 * 10 ^ 18
      by ring]
    exact Int.mul_fdiv_cancel _ (by norm_num)
  exact le_trans h2 (le_of_eq h3)

/-- Monotonicity of step 3 in the power argument. -/
theorem step3_mono (mid : ℤ → ℤ) (hmono : Monotone mid)
    (hm : ∀ p, 0 ≤ mid p) (rate0 : ℤ) (h0 : 0 ≤ rate0) {p q : ℤ}
    (hpq : p ≤ q) :
    Int.fdiv (rate0 * min (exp mid p) MAX_EXP) (10 ^ 18) ≤
      Int.fdiv (rate0 * min (exp mid q) MAX_EXP) (10 ^ 18) :=
  fdiv_le_fdiv_right
    (mul_le_mul_of_nonneg_left
      (min_le_min (exp_monotone mid hmono hm hpq) le_rfl) h0)
    (by norm_num)

/-- The ceiling-adjustment multiplier is positive. -/
theorem multV_pos (k : RateInputs) : 0 < multV k := by
  unfold multV
  have h := Int.fdiv_nonneg
    (show (0 : ℤ) ≤ TARGET_REMAINDER * 10 ^ 18 by norm_num [TARGET_REMAINDER])
    (ceil_denom_pos k).le
  have h2 : (0 : ℤ) < 10 ^ 18 - TARGET_REMAINDER := by
    norm_num [TARGET_REMAINDER]
  linarith

/-- C1, amended.  Under the stated preconditions (sigma positive, rate0
in the range 0 to MAX_RATE, target_debt_fraction positive whenever both
peg-keeper and total debt are positive), calculate_rate succeeds and
returns a value in the interval from 0 to 1000 * MAX_RATE.  The upper
bound MAX_RATE claimed by the specification is wrong when the
ceiling-adjustment branch is skipped: the only cap in that path is
MAX_EXP, so the rate can reach rate0 * 1000. -/
theorem C1_rate_bounds_amended (mid : ℤ → ℤ) (k : RateInputs)
    (hm : ∀ p, 0 ≤ mid p) (hσ : 0 < k.sigma)
    (h0 : 0 ≤ k.rate0) (h1 : k.rate0 ≤ MAX_RATE)
    (hg : 0 < k.pk_debt → 0 < k.total_debt → 0 < k.target_debt_fraction) :
    ∃ r, calculate_rate mid k = .ok r ∧ 0 ≤ r ∧ r ≤ 1000 * MAX_RATE := by
  refine ⟨rateFinalV mid k,
    calculate_rate_ok mid k hσ.ne' (fun ha hb => (hg ha hb).ne'), ?_, ?_⟩
  · unfold rateFinalV
    split_ifs with hc
    · exact le_min
        (Int.fdiv_nonneg
          (mul_nonneg (rate3V_nonneg mid k h0 hm) (multV_pos k).le)
          (by norm_num))
        (by norm_num [MAX_RATE])
    · exact rate3V_nonneg mid k h0 hm
  · unfold rateFinalV
    split_ifs with hc
    · exact le_trans (min_le_right _ _) (by norm_num [MAX_RATE])
    · exact le_trans (rate3V_le mid k h0)
        (mul_le_mul_of_nonneg_left h1 (by norm_num))

/-- C1 witness: the amended bound instantiated at a concrete input. -/
theorem C1_witness :
    (∀ p : ℤ, 0 ≤ midDemo p) ∧ (0 : ℤ) < 2 * 10 ^ 16 ∧
    (0 : ℤ) ≤ 10 ^ 9 ∧ (10 ^ 9 : ℤ) ≤ MAX_RATE ∧
    ∃ r, calculate_rate midDemo
        ⟨10 ^ 18, 2 * 10 ^ 16, 10 ^ 9, 10 ^ 17, 0, 0, 0, 0⟩ = .ok r ∧
      0 ≤ r ∧ r ≤ 1000 * MAX_RATE :=
  ⟨fun p => by norm_num [midDemo], by norm_num, by norm_num,
   by norm_num [MAX_RATE],
   C1_rate_bounds_amended midDemo _ (fun p => by norm_num [midDemo])
     (by norm_num) (by norm_num) (by norm_num [MAX_RATE])
     (fun h _ => absurd h (by norm_num))⟩

/-- C1 counterexample: with price 0.9 * 10^18, sigma = MIN_SIGMA,
rate0 = MAX_RATE and no ceiling, the power saturates the exponential at
MAX_EXP and calculate_rate returns 1000 * MAX_RATE = 43959106799000,
which exceeds MAX_RATE, refuting the claimed bound. -/
theorem C1_counterexample :
    calculate_rate midDemo
        ⟨9 * 10 ^ 17, 10 ^ 14, 43959106799, 10 ^ 17, 0, 0, 0, 0⟩ =
      .ok 43959106799000 ∧ ¬ (43959106799000 : ℤ) ≤ MAX_RATE := by
  constructor
  · rfl
  · norm_num [MAX_RATE]

/-- C3: at sigma = 0 the code raises a bare ZeroDivisionError rather
than an InvalidParameter precondition error, and at sigma = -1 it
silently computes a value instead of failing fast. -/
theorem C3_division_crash_eval :
    calculate_rate midDemo ⟨10 ^ 18, 0, 0, 10 ^ 17, 0, 0, 0, 0⟩ =
      .error .zeroDivisionError ∧
    calculate_rate midDemo ⟨10 ^ 18, -1, 0, 10 ^ 17, 0, 0, 0, 0⟩ = .ok 0 := by
  constructor
  · rfl
  · rfl

/-- Modelled from the spec: steps 1 and 3 of the rate algorithm in
section 4.1 only, with no debt-skew and no ceiling adjustment:
rate = rate0 * min(exp((1e18 - price) * 1e18 // sigma), MAX_EXP) // 1e18
with truncating integer arithmetic at scale 1e18. -/
def specStep13Rate (mid : ℤ → ℤ) (price sigma rate0 : ℤ) : ℤ :=
  Int.fdiv
    (rate0 *
      min (exp mid (Int.fdiv ((10 ^ 18 - price) * 10 ^ 18) sigma)) MAX_EXP)
    (10 ^ 18)

/-- C2: when the peg-keeper debt or the total debt is zero and the
ceiling or the market debt is zero, calculate_rate returns exactly the
two-step spec formula rate0 * min(exp((1e18 - price) * 1e18 // sigma),
MAX_EXP) // 1e18, all in truncating integer arithmetic, with the
floating-point exponential entering only through the abstracted value
inside exp. -/
theorem C2_no_adjustment_refines_spec (mid : ℤ → ℤ) (k : RateInputs)
    (hσ : k.sigma ≠ 0) (hpk : k.pk_debt = 0 ∨ k.total_debt = 0)
    (hc : k.ceiling = 0 ∨ k.debt_for = 0) :
    calculate_rate mid k =
      .ok (specStep13Rate mid k.price k.sigma k.rate0) := by
  have hpk2 : ¬ (0 < k.pk_debt ∧ 0 < k.total_debt) := by
    rcases hpk with h | h <;> rw [h] <;> simp
  have hc2 : ¬ (0 < k.ceiling ∧ 0 < k.debt_for) := by
    rcases hc with h | h <;> rw [h] <;> simp
  rw [calculate_rate_ok mid k hσ (fun ha hb => absurd ⟨ha, hb⟩ hpk2)]
  rw [rateFinalV, if_neg hc2, rate3V, powerV, if_neg hpk2, specStep13Rate,
    power0V]

/-- C2 witness: the refinement instantiated at a concrete peg-price
input. -/
theorem C2_witness :
    ((2 * 10 ^ 16 : ℤ) ≠ 0) ∧
    calculate_rate midDemo
        ⟨10 ^ 18, 2 * 10 ^ 16, 5 * 10 ^ 9, 10 ^ 17, 0, 0, 0, 0⟩ =
      .ok (specStep13Rate midDemo (10 ^ 18) (2 * 10 ^ 16) (5 * 10 ^ 9)) :=
  ⟨by norm_num,
   C2_no_adjustment_refines_spec midDemo _ (by norm_num) (Or.inl rfl)
     (Or.inl rfl)⟩

/-- The final rate is monotone in the power value when base rate,
ceiling and market debt agree. -/
theorem rateFinal_mono_power (mid : ℤ → ℤ) (hmono : Monotone mid)
    (hm : ∀ p, 0 ≤ mid p) {k1 k2 : RateInputs}
    (hr : k1.rate0 = k2.rate0) (h0 : 0 ≤ k2.rate0)
    (hc : k1.ceiling = k2.ceiling) (hd : k1.debt_for = k2.debt_for)
    (hp : powerV k1 ≤ powerV k2) :
    rateFinalV mid k1 ≤ rateFinalV mid k2 := by
  have h3 : rate3V mid k1 ≤ rate3V mid k2 := by
    unfold rate3V
    rw [hr]
    exact step3_mono mid hmono hm _ h0 hp
  have hmult : multV k1 = multV k2 := by
    unfold multV fV
    rw [hc, hd]
  unfold rateFinalV
  rw [hc, hd]
  split_ifs with hcc
  · rw [hmult]
    refine min_le_min (fdiv_le_fdiv_right ?_ (by norm_num)) le_rfl
    exact mul_le_mul_of_nonneg_right h3 (multV_pos k2).le
  · exact h3

/-- C4: with sigma positive, a non-negative base rate, and the
abstracted float exponential monotone and non-negative (true of the
double-precision np.exp), calculate_rate is non-increasing in price:
raising the price never raises the returned rate. -/
theorem C4_rate_antitone_in_price (mid : ℤ → ℤ) (k : RateInputs)
    (hmono : Monotone mid) (hm : ∀ p, 0 ≤ mid p)
    (hσ : 0 < k.sigma) (h0 : 0 ≤ k.rate0)
    (hg : 0 < k.pk_debt → 0 < k.total_debt → k.target_debt_fraction ≠ 0)
    (p1 p2 : ℤ) (hp : p1 ≤ p2) :
    ∃ r1 r2, calculate_rate mid { k with price := p1 } = .ok r1 ∧
      calculate_rate mid { k with price := p2 } = .ok r2 ∧ r2 ≤ r1 := by
  refine ⟨rateFinalV mid { k with price := p1 },
    rateFinalV mid { k with price := p2 },
    calculate_rate_ok mid _ hσ.ne' hg,
    calculate_rate_ok mid _ hσ.ne' hg, ?_⟩
  have hpow : powerV { k with price := p2 } ≤ powerV { k with price := p1 } := by
    unfold powerV power0V adjV
    dsimp only
    have hbase : Int.fdiv ((10 ^ 18 - p2) * 10 ^ 18) k.sigma ≤
        Int.fdiv ((10 ^ 18 - p1) * 10 ^ 18) k.sigma :=
      fdiv_le_fdiv_right
        (mul_le_mul_of_nonneg_right (sub_le_sub_left hp _) (by norm_num)) hσ
    split_ifs with h
    · exact sub_le_sub_right hbase _
    · exact hbase
  exact rateFinal_mono_power mid hmono hm rfl h0 rfl rfl hpow

/-- C4 witness: the price monotonicity instantiated at two concrete
prices around the peg. -/
theorem C4_witness :
    Monotone midDemo ∧ (∀ p : ℤ, 0 ≤ midDemo p) ∧
    (0 : ℤ) < 2 * 10 ^ 16 ∧ (0 : ℤ) ≤ 10 ^ 9 ∧
    ((10 ^ 18 : ℤ) ≤ 11 * 10 ^ 17) ∧
    ∃ r1 r2, calculate_rate midDemo
        ⟨10 ^ 18, 2 * 10 ^ 16, 10 ^ 9, 10 ^ 17, 0, 0, 0, 0⟩ = .ok r1 ∧
      calculate_rate midDemo
        ⟨11 * 10 ^ 17, 2 * 10 ^ 16, 10 ^ 9, 10 ^ 17, 0, 0, 0, 0⟩ = .ok r2 ∧
      r2 ≤ r1 :=
  ⟨monotone_const, fun p => by norm_num [midDemo], by norm_num, by norm_num,
   by norm_num,
   C4_rate_antitone_in_price midDemo
     ⟨10 ^ 18, 2 * 10 ^ 16, 10 ^ 9, 10 ^ 17, 0, 0, 0, 0⟩
     monotone_const (fun p => by norm_num [midDemo]) (by norm_num)
     (by norm_num) (fun h _ => absurd h (by norm_num))
     (10 ^ 18) (11 * 10 ^ 17) (by norm_num)⟩

/-- C5: with positive ceiling, positive market debt on both sides, and
the stated preconditions, calculate_rate is non-decreasing in debt_for:
higher utilization never lowers the returned (MAX_RATE-capped) rate. -/
theorem C5_rate_monotone_in_debt_for (mid : ℤ → ℤ) (k : RateInputs)
    (hm : ∀ p, 0 ≤ mid p) (hσ : 0 < k.sigma) (h0 : 0 ≤ k.rate0)
    (hg : 0 < k.pk_debt → 0 < k.total_debt → k.target_debt_fraction ≠ 0)
    (hceil : 0 < k.ceiling) (d1 d2 : ℤ) (hd1 : 0 < d1) (hd : d1 ≤ d2) :
    ∃ r1 r2, calculate_rate mid { k with debt_for := d1 } = .ok r1 ∧
      calculate_rate mid { k with debt_for := d2 } = .ok r2 ∧ r1 ≤ r2 := by
  refine ⟨rateFinalV mid { k with debt_for := d1 },
    rateFinalV mid { k with debt_for := d2 },
    calculate_rate_ok mid _ hσ.ne' hg,
    calculate_rate_ok mid _ hσ.ne' hg, ?_⟩
  have hd2 : 0 < d2 := lt_of_lt_of_le hd1 hd
  have hf : fV { k with debt_for := d1 } ≤ fV { k with debt_for := d2 } := by
    unfold fV
    dsimp only
    exact min_le_min
      (fdiv_le_fdiv_right
        (mul_le_mul_of_nonneg_right hd (by norm_num)) hceil) le_rfl
  have hmult : multV { k with debt_for := d1 } ≤
      multV { k with debt_for := d2 } := by
    unfold multV
    refine add_le_add_left ?_ _
    exact fdiv_le_fdiv_left
      (by norm_num [TARGET_REMAINDER])
      (ceil_denom_pos { k with debt_for := d2 })
      (sub_le_sub_left hf _)
  have h3 : rate3V mid { k with debt_for := d1 } =
      rate3V mid { k with debt_for := d2 } := rfl
  have h3n : 0 ≤ rate3V mid { k with debt_for := d1 } :=
    rate3V_nonneg mid _ h0 hm
  unfold rateFinalV
  dsimp only
  rw [if_pos ⟨hceil, hd1⟩, if_pos ⟨hceil, hd2⟩]
  refine min_le_min (fdiv_le_fdiv_right ?_ (by norm_num)) le_rfl
  rw [← h3] at *
  exact mul_le_mul_of_nonneg_left hmult h3n

/-- C5 witness: the utilization monotonicity instantiated at two
concrete utilizations below the ceiling. -/
theorem C5_witness :
    (∀ p : ℤ, 0 ≤ midDemo p) ∧ (0 : ℤ) < 2 * 10 ^ 16 ∧ (0 : ℤ) ≤ 10 ^ 9 ∧
    (0 : ℤ) < 10 ^ 18 ∧ (0 : ℤ) < 5 * 10 ^ 17 ∧
    ((5 * 10 ^ 17 : ℤ) ≤ 9 * 10 ^ 17) ∧
    ∃ r1 r2, calculate_rate midDemo
        ⟨10 ^ 18, 2 * 10 ^ 16, 10 ^ 9, 10 ^ 17, 5 * 10 ^ 17, 0, 0, 10 ^ 18⟩ =
        .ok r1 ∧
      calculate_rate midDemo
        ⟨10 ^ 18, 2 * 10 ^ 16, 10 ^ 9, 10 ^ 17, 9 * 10 ^ 17, 0, 0, 10 ^ 18⟩ =
        .ok r2 ∧ r1 ≤ r2 :=
  ⟨fun p => by norm_num [midDemo], by norm_num, by norm_num, by norm_num,
   by norm_num, by norm_num,
   C5_rate_monotone_in_debt_for midDemo
     ⟨10 ^ 18, 2 * 10 ^ 16, 10 ^ 9, 10 ^ 17, 0, 0, 0, 10 ^ 18⟩
     (fun p => by norm_num [midDemo]) (by norm_num) (by norm_num)
     (fun h _ => absurd h (by norm_num)) (by norm_num)
     (5 * 10 ^ 17) (9 * 10 ^ 17) (by norm_num) (by norm_num)⟩

/-- C7 counterexample: at debt_for = ceiling = 10^18 the utilization
fraction clamps to 10^18 - TARGET_REMAINDER // 1000 = 10^18 - 10^14 =
999900000000000000, not to the literal value 1e18 - 1e14/1000 =
999999999900000000 stated in the claim. -/
theorem C7_counterexample :
    fV ⟨10 ^ 18, 2 * 10 ^ 16, 0, 10 ^ 17, 10 ^ 18, 0, 0, 10 ^ 18⟩ =
      999900000000000000 ∧
    (999900000000000000 : ℤ) ≠ 999999999900000000 := by
  constructor
  · rfl
  · norm_num

/-- C7, amended.  At full utilization (debt_for = ceiling > 0) the
utilization fraction clamps to 10^18 - 10^14 (the code computes
10^18 - TARGET_REMAINDER // 1000), and calculate_rate returns
min(step3_rate * ((1e18 - TARGET_REMAINDER) + TARGET_REMAINDER * 1e18 //
(1e18 - f)) // 1e18, MAX_RATE) at that clamped f. -/
theorem C7_full_utilization_amended (mid : ℤ → ℤ) (k : RateInputs)
    (hσ : k.sigma ≠ 0)
    (hg : 0 < k.pk_debt → 0 < k.total_debt → k.target_debt_fraction ≠ 0)
    (hceil : 0 < k.ceiling) (hdf : k.debt_for = k.ceiling) :
    fV k = 10 ^ 18 - 10 ^ 14 ∧
    calculate_rate mid k =
      .ok (min (Int.fdiv (rate3V mid k * ((10 ^ 18 - TARGET_REMAINDER) +
          Int.fdiv (TARGET_REMAINDER * 10 ^ 18)
            (10 ^ 18 - (10 ^ 18 - 10 ^ 14)))) (10 ^ 18)) MAX_RATE) := by
  have hfv : fV k = 10 ^ 18 - 10 ^ 14 := by
    unfold fV
    rw [hdf, target_remainder_div, Int.mul_fdiv_cancel_left _ hceil.ne']
    exact min_eq_right (by norm_num)
  refine ⟨hfv, ?_⟩
  have hdfpos : 0 < k.debt_for := by rw [hdf]; exact hceil
  rw [calculate_rate_ok mid k hσ hg, rateFinalV, if_pos ⟨hceil, hdfpos⟩,
    multV, hfv]

/-- C7 witness: the amended statement instantiated at debt_for =
ceiling = 10^18. -/
theorem C7_witness :
    ((2 * 10 ^ 16 : ℤ) ≠ 0) ∧ ((0 : ℤ) < 10 ^ 18) ∧
    (fV ⟨10 ^ 18, 2 * 10 ^ 16, 0, 10 ^ 17, 10 ^ 18, 0, 0, 10 ^ 18⟩ =
      10 ^ 18 - 10 ^ 14 ∧
    calculate_rate midDemo
        ⟨10 ^ 18, 2 * 10 ^ 16, 0, 10 ^ 17, 10 ^ 18, 0, 0, 10 ^ 18⟩ =
      .ok (min (Int.fdiv
          (rate3V midDemo
              ⟨10 ^ 18, 2 * 10 ^ 16, 0, 10 ^ 17, 10 ^ 18, 0, 0, 10 ^ 18⟩ *
            ((10 ^ 18 - TARGET_REMAINDER) +
              Int.fdiv (TARGET_REMAINDER * 10 ^ 18)
                (10 ^ 18 - (10 ^ 18 - 10 ^ 14)))) (10 ^ 18)) MAX_RATE)) :=
  ⟨by norm_num, by norm_num,
   C7_full_utilization_amended midDemo
     ⟨10 ^ 18, 2 * 10 ^ 16, 0, 10 ^ 17, 10 ^ 18, 0, 0, 10 ^ 18⟩
     (by norm_num) (fun h _ => absurd h (by norm_num)) (by norm_num) rfl⟩

/-- C8 counterexample: with rate0 = 0 and pk_debt = total_debt = 10^18,
both the skewed call and the otherwise-identical call with pk_debt = 0
return the same rate 0, so the rate with skew is not strictly lower. -/
theorem C8_counterexample :
    calculate_rate midDemo
        ⟨10 ^ 18, 2 * 10 ^ 16, 0, 5 * 10 ^ 17, 0, 10 ^ 18, 10 ^ 18, 0⟩ =
      .ok 0 ∧
    calculate_rate midDemo
        ⟨10 ^ 18, 2 * 10 ^ 16, 0, 5 * 10 ^ 17, 0, 10 ^ 18, 0, 0⟩ = .ok 0 := by
  constructor
  · rfl
  · rfl

/-- C8, amended.  With pk_debt = total_debt = t > 0 and
0 < target_debt_fraction < 10^18, the power is reduced by exactly
(pk_debt * 1e18 // total_debt) * 1e18 // target_debt_fraction (a
positive amount) versus the call with pk_debt = 0, and the returned rate
is lower than or equal to (not always strictly lower than) the rate of
the otherwise-identical call with pk_debt = 0. -/
theorem C8_skew_amended (mid : ℤ → ℤ) (k : RateInputs)
    (hmono : Monotone mid) (hm : ∀ p, 0 ≤ mid p)
    (hσ : 0 < k.sigma) (h0 : 0 ≤ k.rate0)
    (t : ℤ) (ht : 0 < t) (htdf1 : 0 < k.target_debt_fraction)
    (htdf2 : k.target_debt_fraction < 10 ^ 18) :
    powerV { k with pk_debt := t, total_debt := t } =
      powerV { k with pk_debt := 0, total_debt := t } -
        adjV { k with pk_debt := t, total_debt := t } ∧
    0 < adjV { k with pk_debt := t, total_debt := t } ∧
    ∃ r1 r2,
      calculate_rate mid { k with pk_debt := t, total_debt := t } = .ok r1 ∧
      calculate_rate mid { k with pk_debt := 0, total_debt := t } = .ok r2 ∧
      r1 ≤ r2 := by
  have hadj : adjV { k with pk_debt := t, total_debt := t } =
      Int.fdiv (10 ^ 18 * 10 ^ 18) k.target_debt_fraction := by
    unfold adjV
    dsimp only
    rw [Int.mul_fdiv_cancel_left _ ht.ne']
  have hadjpos : 0 < adjV { k with pk_debt := t, total_debt := t } := by
    rw [hadj]
    have h1 : Int.fdiv (10 ^ 18 * 10 ^ 18) (10 ^ 18) ≤
        Int.fdiv (10 ^ 18 * 10 ^ 18) k.target_debt_fraction :=
      fdiv_le_fdiv_left (by norm_num) htdf1 htdf2.le
    have h2 : Int.fdiv ((10 ^ 18 : ℤ) * 10 ^ 18) (10 ^ 18) = 10 ^ 18 :=
      Int.mul_fdiv_cancel _ (by norm_num)
    have h3 : (0 : ℤ) < 10 ^ 18 := by norm_num
    omega
  have hpower : powerV { k with pk_debt := t, total_debt := t } =
      powerV { k with pk_debt := 0, total_debt := t } -
        adjV { k with pk_debt := t, total_debt := t } := by
    unfold powerV
    dsimp only
    rw [if_pos ⟨ht, ht⟩, if_neg (by simp)]
    rfl
  refine ⟨hpower, hadjpos, rateFinalV mid _, rateFinalV mid _,
    calculate_rate_ok mid _ hσ.ne' (fun _ _ => htdf1.ne'),
    calculate_rate_ok mid _ hσ.ne' (fun h _ => absurd h (by simp)), ?_⟩
  refine rateFinal_mono_power mid hmono hm rfl h0 rfl rfl ?_
  rw [hpower]
  omega

/-- C8 witness: the amended statement instantiated with the peg-keeper
debt fully on one market. -/
theorem C8_witness :
    Monotone midDemo ∧ (∀ p : ℤ, 0 ≤ midDemo p) ∧
    (0 : ℤ) < 2 * 10 ^ 16 ∧ (0 : ℤ) ≤ 10 ^ 9 ∧ (0 : ℤ) < 10 ^ 18 ∧
    (0 : ℤ) < 5 * 10 ^ 17 ∧ ((5 * 10 ^ 17 : ℤ) < 10 ^ 18) ∧
    (powerV ⟨10 ^ 18, 2 * 10 ^ 16, 10 ^ 9, 5 * 10 ^ 17, 0, 10 ^ 18,
        10 ^ 18, 0⟩ =
      powerV ⟨10 ^ 18, 2 * 10 ^ 16, 10 ^ 9, 5 * 10 ^ 17, 0, 10 ^ 18, 0, 0⟩ -
        adjV ⟨10 ^ 18, 2 * 10 ^ 16, 10 ^ 9, 5 * 10 ^ 17, 0, 10 ^ 18,
          10 ^ 18, 0⟩ ∧
    0 < adjV ⟨10 ^ 18, 2 * 10 ^ 16, 10 ^ 9, 5 * 10 ^ 17, 0, 10 ^ 18,
        10 ^ 18, 0⟩ ∧
    ∃ r1 r2,
      calculate_rate midDemo ⟨10 ^ 18, 2 * 10 ^ 16, 10 ^ 9, 5 * 10 ^ 17, 0,
          10 ^ 18, 10 ^ 18, 0⟩ = .ok r1 ∧
      calculate_rate midDemo ⟨10 ^ 18, 2 * 10 ^ 16, 10 ^ 9, 5 * 10 ^ 17, 0,
          10 ^ 18, 0, 0⟩ = .ok r2 ∧ r1 ≤ r2) :=
  ⟨monotone_const, fun p => by norm_num [midDemo], by norm_num, by norm_num,
   by norm_num, by norm_num, by norm_num,
   C8_skew_amended midDemo
     ⟨10 ^ 18, 2 * 10 ^ 16, 10 ^ 9, 5 * 10 ^ 17, 0, 0, 0, 0⟩
     monotone_const (fun p => by norm_num [midDemo]) (by norm_num)
     (by norm_num) (10 ^ 18) (by norm_num) (by norm_num) (by norm_num)⟩

/-- C9 counterexample: at the human value 3 / (2 * 10^18), to_wei
truncates 1.5 down to 1 while rounding to the nearest integer would
give 2, so to_fixed is not round(h * 1e18). -/
theorem C9_counterexample :
    to_wei (3 / (2 * 10 ^ 18)) 18 = 1 ∧
    round ((3 / (2 * 10 ^ 18) : ℚ) * 10 ^ 18) = 2 ∧ (1 : ℤ) ≠ 2 := by
  have h1 : (3 / (2 * 10 ^ 18) : ℚ) * 10 ^ 18 = 3 / 2 := by norm_num
  refine ⟨?_, ?_, by norm_num⟩
  · unfold to_wei pyTrunc
    rw [if_pos (by norm_num), h1, Int.floor_eq_iff]
    norm_num
  · rw [h1, round_eq, show (3 / 2 + 1 / 2 : ℚ) = 2 by norm_num,
      Int.floor_eq_iff]
    norm_num

/-- C9, amended.  to_fixed(h) is int(h * 1e18), truncation toward zero
(the floor for non-negative h, the ceiling for negative h), not
round(h * 1e18); and from_fixed(x) is exactly x / 1e18. -/
theorem C9_conversions_amended (h : ℚ) (x : ℤ) :
    (0 ≤ h →
      (to_wei h 18 : ℚ) ≤ h * 10 ^ 18 ∧
      (h * 10 ^ 18 : ℚ) < (to_wei h 18 : ℚ) + 1) ∧
    (h < 0 →
      (h * 10 ^ 18 : ℚ) ≤ (to_wei h 18 : ℚ) ∧
      (to_wei h 18 : ℚ) < h * 10 ^ 18 + 1) ∧
    from_wei x 18 = (x : ℚ) / 10 ^ 18 := by
  refine ⟨fun hh => ?_, fun hh => ?_, rfl⟩
  · have hx : (0 : ℚ) ≤ h * 10 ^ 18 := mul_nonneg hh (by norm_num)
    unfold to_wei pyTrunc
    rw [if_pos hx]
    exact ⟨Int.floor_le _, Int.lt_floor_add_one _⟩
  · have hx : ¬ (0 : ℚ) ≤ h * 10 ^ 18 := by
      push_neg
      exact mul_neg_of_neg_of_pos hh (by norm_num)
    unfold to_wei pyTrunc
    rw [if_neg hx]
    exact ⟨Int.le_ceil _, Int.ceil_lt_add_one _⟩

/-- C9 witness: the truncation characterization instantiated at the
human value one half and the fixed-point value 5. -/
theorem C9_witness :
    ((0 : ℚ) ≤ 1 / 2) ∧
    ((to_wei (1 / 2) 18 : ℚ) ≤ (1 / 2 : ℚ) * 10 ^ 18 ∧
      ((1 / 2 : ℚ) * 10 ^ 18) < (to_wei (1 / 2) 18 : ℚ) + 1) ∧
    from_wei 5 18 = (5 : ℚ) / 10 ^ 18 :=
  ⟨by norm_num, (C9_conversions_amended (1 / 2) 5).1 (by norm_num),
   (C9_conversions_amended (1 / 2) 5).2.2⟩

/-- The float model of the exponential takes the exact value 10^18 at
power 0, as the double-precision np.exp does. -/
theorem floatExpModel_zero : floatExpModel 0 = 10 ^ 18 := by
  unfold floatExpModel
  rw [show ((0 : ℤ) : ℝ) / 10 ^ 18 = 0 by norm_num, Real.exp_zero, one_mul,
    show ((10 : ℝ) ^ 18) = ((10 ^ 18 : ℤ) : ℝ) by norm_num]
  exact Int.floor_intCast _

/-- The real exponential at 7 is at least 1000. -/
theorem exp_seven_ge : (1000 : ℝ) ≤ Real.exp 7 := by
  have he : Real.exp 7 = Real.exp 1 ^ 7 := by
    rw [← Real.exp_nat_mul]
    norm_num
  have hgt : (2.7182818283 : ℝ) ^ 7 ≤ Real.exp 1 ^ 7 :=
    pow_le_pow_left₀ (by norm_num) Real.exp_one_gt_d9.le 7
  have hnum : (1000 : ℝ) ≤ (2.7182818283 : ℝ) ^ 7 := by norm_num
  linarith

/-- C10: for every power from 7e18 up to (but excluding) the documented
threshold 135305999368893231589, the exp method with the real-exponential
float model already returns exactly MAX_EXP, because the internal min
clamp saturates from about ln(1000) * 1e18 onward; and the renewed
min against MAX_EXP in step 3 of calculate_rate is redundant for every
float model and every power. -/
theorem C10_exp_saturation (power : ℤ) (h1 : 7 * 10 ^ 18 ≤ power)
    (h2 : power < 135305999368893231589) :
    exp floatExpModel power = MAX_EXP ∧
    ∀ (mid : ℤ → ℤ) (p : ℤ), min (exp mid p) MAX_EXP = exp mid p := by
  constructor
  · norm_num at h1
    unfold exp
    rw [if_neg (by omega), if_neg (by omega)]
    refine min_eq_right ?_
    unfold floatExpModel MAX_EXP
    rw [Int.le_floor]
    have hx : (7 : ℝ) ≤ (power : ℝ) / 10 ^ 18 := by
      rw [le_div_iff₀ (by norm_num)]
      have hcast : ((7000000000000000000 : ℤ) : ℝ) ≤ (power : ℝ) :=
        Int.cast_le.mpr h1
      norm_num at hcast ⊢
      linarith
    have hmono : Real.exp 7 ≤ Real.exp ((power : ℝ) / 10 ^ 18) :=
      Real.exp_le_exp.mpr hx
    have h1000 : (1000 : ℝ) ≤ Real.exp ((power : ℝ) / 10 ^ 18) :=
      le_trans exp_seven_ge hmono
    push_cast
    nlinarith
  · intro mid p
    exact min_eq_left (exp_le_max mid p)

/-- C10 witness: the saturation instantiated at power = 7e18. -/
theorem C10_witness :
    ((7 * 10 ^ 18 : ℤ) ≤ 7 * 10 ^ 18) ∧
    ((7 * 10 ^ 18 : ℤ) < 135305999368893231589) ∧
    (exp floatExpModel (7 * 10 ^ 18) = MAX_EXP ∧
      ∀ (mid : ℤ → ℤ) (p : ℤ), min (exp mid p) MAX_EXP = exp mid p) :=
  ⟨le_refl _, by norm_num,
   C10_exp_saturation (7 * 10 ^ 18) (le_refl _) (by norm_num)⟩


/-- Compounding a floored per-period rate: if a is the floor of
(r - 1) * 10^18 for some growth factor r at least 1 with r ^ n = 1.1,
then compounding 1 + a / 10^18 over n periods lands within
1.1 * n / 10^18 (assumed at most 10^-6) of the 10 percent target. -/
theorem annualize_deviation (n : ℕ) (a : ℤ) (r : ℝ)
    (hr1 : 1 ≤ r) (hrn : r ^ n = 1.1)
    (hfl1 : (a : ℝ) ≤ (r - 1) * 10 ^ 18)
    (hfl2 : (r - 1) * 10 ^ 18 - 1 < (a : ℝ))
    (hsmall : 1.1 * (n : ℝ) / 10 ^ 18 ≤ 1 / 10 ^ 6) :
    |(1 + (a : ℝ) / 10 ^ 18) ^ n - 1 - 1 / 10| ≤ 1 / 10 ^ 6 := by
  have hrpos : (0 : ℝ) < r := lt_of_lt_of_le one_pos hr1
  set s : ℝ := 1 + (a : ℝ) / 10 ^ 18 with hs
  have hsr : s ≤ r := by
    rw [hs]
    have h := (div_le_iff₀ (show (0 : ℝ) < 10 ^ 18 by norm_num)).mpr hfl1
    linarith
  have hslow : r - 1 / 10 ^ 18 < s := by
    rw [hs]
    have h2 : (r - 1 - 1 / 10 ^ 18) < (a : ℝ) / 10 ^ 18 := by
      rw [lt_div_iff₀ (show (0 : ℝ) < 10 ^ 18 by norm_num)]
      have e : (r - 1 - 1 / 10 ^ 18) * 10 ^ 18 = (r - 1) * 10 ^ 18 - 1 := by
        ring
      linarith
    linarith
  have hrd0 : (0 : ℝ) ≤ r - 1 / 10 ^ 18 := by
    have h4 : (1 / 10 ^ 18 : ℝ) < 1 := by norm_num
    linarith
  have hs0 : (0 : ℝ) ≤ s := le_trans hrd0 hslow.le
  have hup : s ^ n ≤ 1.1 := by
    calc s ^ n ≤ r ^ n := pow_le_pow_left₀ hs0 hsr n
      _ = 1.1 := hrn
  have hlow : 1.1 - 1.1 * (n : ℝ) / 10 ^ 18 ≤ s ^ n := by
    have hpow : (r - 1 / 10 ^ 18) ^ n ≤ s ^ n :=
      pow_le_pow_left₀ hrd0 hslow.le n
    have hfact : r - 1 / 10 ^ 18 = r * (1 - (1 / 10 ^ 18) / r) := by
      field_simp
      ring
    have hdr : (1 / 10 ^ 18 : ℝ) / r ≤ 1 / 10 ^ 18 :=
      div_le_self (by norm_num) hr1
    have hbern0 : (-2 : ℝ) ≤ -((1 / 10 ^ 18 : ℝ) / r) := by
      have h5 : (1 / 10 ^ 18 : ℝ) ≤ 1 := by norm_num
      linarith
    have hbern := one_add_mul_le_pow hbern0 n
    have e1 : (1 : ℝ) + (n : ℝ) * -((1 / 10 ^ 18 : ℝ) / r) =
        1 - (n : ℝ) * ((1 / 10 ^ 18 : ℝ) / r) := by ring
    have e2 : (1 : ℝ) + -((1 / 10 ^ 18 : ℝ) / r) =
        1 - (1 / 10 ^ 18 : ℝ) / r := by ring
    rw [e1, e2] at hbern
    have hmul : r ^ n * (1 - (n : ℝ) * ((1 / 10 ^ 18 : ℝ) / r)) ≤
        r ^ n * ((1 - (1 / 10 ^ 18 : ℝ) / r) ^ n) :=
      mul_le_mul_of_nonneg_left hbern (pow_nonneg hrpos.le n)
    have hfactpow : (r - 1 / 10 ^ 18) ^ n =
        r ^ n * (1 - (1 / 10 ^ 18 : ℝ) / r) ^ n := by
      rw [← mul_pow, ← hfact]
    have hNd : 1.1 * ((n : ℝ) * ((1 / 10 ^ 18 : ℝ) / r)) ≤
        1.1 * ((n : ℝ) * (1 / 10 ^ 18 : ℝ)) := by
      have h1 : (n : ℝ) * ((1 / 10 ^ 18 : ℝ) / r) ≤
          (n : ℝ) * (1 / 10 ^ 18 : ℝ) :=
        mul_le_mul_of_nonneg_left hdr (Nat.cast_nonneg n)
      linarith
    calc 1.1 - 1.1 * (n : ℝ) / 10 ^ 18
        = 1.1 - 1.1 * ((n : ℝ) * (1 / 10 ^ 18 : ℝ)) := by ring
      _ ≤ 1.1 - 1.1 * ((n : ℝ) * ((1 / 10 ^ 18 : ℝ) / r)) := by linarith
      _ = r ^ n * (1 - (n : ℝ) * ((1 / 10 ^ 18 : ℝ) / r)) := by
          rw [hrn]; ring
      _ ≤ r ^ n * ((1 - (1 / 10 ^ 18 : ℝ) / r) ^ n) := hmul
      _ = (r - 1 / 10 ^ 18) ^ n := hfactpow.symm
      _ ≤ s ^ n := hpow
  rw [abs_le]
  constructor
  · linarith
  · linarith

/-- C6: Scenario A.  At the peg price 1e18 with sigma 2e16, base rate
to_fixed((1.10) ^ (1 / 31536000) - 1), target debt fraction 5e17 and all
debt fields zero, calculate_rate returns rate0 exactly (power is 0, the
exponential is 1e18, no ceiling adjustment applies), and the annualized
rate is within 10^-6 of 0.10.  The float hypothesis is only the exact
IEEE identity np.exp(0.0) * 1e18 = 1e18. -/
theorem C6_scenarioA (mid : ℤ → ℤ) (hmid : mid 0 = 10 ^ 18) :
    calculate_rate mid
        ⟨10 ^ 18, 2 * 10 ^ 16, rate0_scenarioA, 5 * 10 ^ 17, 0, 0, 0, 0⟩ =
      .ok rate0_scenarioA ∧
    |calculate_annual_rate rate0_scenarioA - 1 / 10| ≤ 1 / 10 ^ 6 := by
  constructor
  · rw [calculate_rate_ok mid _ (by norm_num : (2 * 10 ^ 16 : ℤ) ≠ 0)
      (fun h _ => absurd h (by norm_num : ¬ (0 : ℤ) < 0))]
    congr 1
    unfold rateFinalV
    rw [if_neg (by simp)]
    unfold rate3V powerV
    rw [if_neg (by simp)]
    unfold power0V
    dsimp only
    rw [show ((10 : ℤ) ^ 18 - 10 ^ 18) * 10 ^ 18 = 0 by ring, Int.zero_fdiv]
    unfold exp
    rw [if_neg (by norm_num), if_neg (by norm_num), hmid,
      min_eq_left (by norm_num [MAX_EXP]), min_eq_left (by norm_num [MAX_EXP])]
    exact Int.mul_fdiv_cancel _ (by norm_num)
  · have hr1 : (1 : ℝ) ≤ (1.1 : ℝ) ^ ((1 : ℝ) / 31536000) := by
      calc (1 : ℝ) = (1 : ℝ) ^ ((1 : ℝ) / 31536000) := (Real.one_rpow _).symm
        _ ≤ (1.1 : ℝ) ^ ((1 : ℝ) / 31536000) :=
          Real.rpow_le_rpow (by norm_num) (by norm_num) (by norm_num)
    have hrn : ((1.1 : ℝ) ^ ((1 : ℝ) / 31536000)) ^ (31536000 : ℕ) = 1.1 := by
      rw [← Real.rpow_natCast ((1.1 : ℝ) ^ ((1 : ℝ) / 31536000)) 31536000,
        ← Real.rpow_mul (by norm_num),
        show (1 : ℝ) / 31536000 * ((31536000 : ℕ) : ℝ) = 1 by norm_num,
        Real.rpow_one]
    have hfl1 : ((rate0_scenarioA : ℝ)) ≤
        ((1.1 : ℝ) ^ ((1 : ℝ) / 31536000) - 1) * 10 ^ 18 := by
      unfold rate0_scenarioA
      exact Int.floor_le _
    have hfl2 : ((1.1 : ℝ) ^ ((1 : ℝ) / 31536000) - 1) * 10 ^ 18 - 1 <
        (rate0_scenarioA : ℝ) := by
      unfold rate0_scenarioA
      exact Int.sub_one_lt_floor _
    have h := annualize_deviation 31536000 rate0_scenarioA
      ((1.1 : ℝ) ^ ((1 : ℝ) / 31536000)) hr1 hrn hfl1 hfl2 (by norm_num)
    unfold calculate_annual_rate
    rw [show (365 * 24 * 60 * 60 : ℕ) = 31536000 by norm_num]
    exact h

/-- C6 witness: the scenario instantiated with the real-exponential
float model, whose value at power 0 is exactly 10^18. -/
theorem C6_witness :
    floatExpModel 0 = 10 ^ 18 ∧
    (calculate_rate floatExpModel
        ⟨10 ^ 18, 2 * 10 ^ 16, rate0_scenarioA, 5 * 10 ^ 17, 0, 0, 0, 0⟩ =
      .ok rate0_scenarioA ∧
    |calculate_annual_rate rate0_scenarioA - 1 / 10| ≤ 1 / 10 ^ 6) :=
  ⟨floatExpModel_zero, C6_scenarioA floatExpModel floatExpModel_zero⟩
